import Mathlib

/-!
Verification of the column-type inference core of `csv_to_db.py`.

The embedded functions are `match_type`, `guess_sql_type` and
`predict_column_types` (src/csv_to_db.py, lines 17-58).  The SQL type
strings returned by the Python code ("date", "float(15)", "varchar(50)")
become the constructors of `SqlType`; Python's `None` (the transient
"unresolved" state) becomes `Option.none`.  The five regular expressions
of `guess_sql_type` are embedded as terms of a small regex AST `RE`
covering exactly the constructs they use (character class, optional
class, one-or-more of a class, exactly-n of a class, concatenation),
with a declarative semantics `RE.Matches` and an executable
continuation-passing matcher `RE.accept` proved equivalent.
-/

/-- The SQL type strings produced by `guess_sql_type` in the source:
`"date"`, `"float(15)"` and `"varchar(50)"`.  The spec refers to them
by the abstract tags `date`, `decimal` and `text` respectively. -/
inductive SqlType : Type
  | date
  | float15
  | varchar50
deriving DecidableEq

/-- Regex abstract syntax, covering exactly the constructs used by the
five patterns in `guess_sql_type`: a single character from a class
(the dot-slash-dash separator class, or `[.]`), an optional character
from a class (`[-+]?`), one or more characters from a class (`\d+`),
exactly `n` characters from a class (`\d` braces n), and
concatenation. -/
inductive RE : Type
  | cls (p : Char → Bool)
  | opt (p : Char → Bool)
  | plus (p : Char → Bool)
  | repN (p : Char → Bool) (n : Nat)
  | seq (a b : RE)

/-- Declarative semantics: `RE.Matches re l` holds when the character
list `l`, in its entirety, is in the language of `re`. -/
def RE.Matches : RE → List Char → Prop
  | .cls p, l => ∃ c, l = [c] ∧ p c = true
  | .opt p, l => l = [] ∨ ∃ c, l = [c] ∧ p c = true
  | .plus p, l => l ≠ [] ∧ ∀ c ∈ l, p c = true
  | .repN p n, l => l.length = n ∧ ∀ c ∈ l, p c = true
  | .seq a b, l => ∃ l1 l2, l = l1 ++ l2 ∧ RE.Matches a l1 ∧ RE.Matches b l2

/-- Executable matching of `\d+`-style subpatterns in continuation
style: some nonempty prefix of characters satisfying `p` is consumed
and the continuation accepts the remainder. -/
def RE.acceptPlus (p : Char → Bool) : List Char → (List Char → Bool) → Bool
  | [], _ => false
  | c :: r, k => p c && (k r || RE.acceptPlus p r k)

/-- Executable matching of `\d{n}`-style subpatterns in continuation
style: exactly `n` characters satisfying `p` are consumed. -/
def RE.acceptRep (p : Char → Bool) : Nat → List Char → (List Char → Bool) → Bool
  | 0, l, k => k l
  | _ + 1, [], _ => false
  | n + 1, c :: r, k => p c && RE.acceptRep p n r k

/-- Executable backtracking matcher in continuation style:
`RE.accept re l k` holds when some prefix of `l` matches `re` and the
continuation `k` accepts the corresponding suffix. -/
def RE.accept : RE → List Char → (List Char → Bool) → Bool
  | .cls _, [], _ => false
  | .cls p, c :: r, k => p c && k r
  | .opt _, [], k => k []
  | .opt p, c :: r, k => k (c :: r) || (p c && k r)
  | .plus p, l, k => RE.acceptPlus p l k
  | .repN p n, l, k => RE.acceptRep p n l k
  | .seq a b, l, k => RE.accept a l (fun r => RE.accept b r k)

theorem RE.acceptPlus_iff (p : Char → Bool) (l : List Char) (k : List Char → Bool) :
    RE.acceptPlus p l k = true ↔
      ∃ l1 l2, l = l1 ++ l2 ∧ (l1 ≠ [] ∧ ∀ c ∈ l1, p c = true) ∧ k l2 = true := by
  induction l with
  | nil =>
      simp only [RE.acceptPlus, Bool.false_eq_true, false_iff]
      rintro ⟨l1, l2, heq, ⟨hne, _⟩, _⟩
      exact hne (List.append_eq_nil.mp heq.symm).1
  | cons c r ih =>
      simp only [RE.acceptPlus, Bool.and_eq_true, Bool.or_eq_true]
      constructor
      · rintro ⟨hp, hk | hrec⟩
        · exact ⟨[c], r, rfl, ⟨List.cons_ne_nil c [], by simpa using hp⟩, hk⟩
        · obtain ⟨l1, l2, heq, ⟨hne, hall⟩, hk⟩ := ih.mp hrec
          exact ⟨c :: l1, l2, by simp [heq], ⟨List.cons_ne_nil c l1,
            by intro x hx; rcases List.mem_cons.mp hx with h | h
               · simpa [h] using hp
               · exact hall x h⟩, hk⟩
      · rintro ⟨l1, l2, heq, ⟨hne, hall⟩, hk⟩
        cases l1 with
        | nil => exact absurd rfl hne
        | cons c' l1' =>
            simp only [List.cons_append, List.cons.injEq] at heq
            obtain ⟨hc, hr⟩ := heq
            subst hc
            refine ⟨hall c (List.mem_cons_self c l1'), ?_⟩
            cases l1' with
            | nil =>
                left
                rw [List.nil_append] at hr
                rw [hr]
                exact hk
            | cons d l1'' =>
                right
                exact ih.mpr ⟨d :: l1'', l2, hr, ⟨List.cons_ne_nil d l1'',
                  fun x hx => hall x (List.mem_cons_of_mem c hx)⟩, hk⟩

theorem RE.acceptRep_iff (p : Char → Bool) (n : Nat) (l : List Char)
    (k : List Char → Bool) :
    RE.acceptRep p n l k = true ↔
      ∃ l1 l2, l = l1 ++ l2 ∧ (l1.length = n ∧ ∀ c ∈ l1, p c = true) ∧ k l2 = true := by
  induction n generalizing l with
  | zero =>
      simp only [RE.acceptRep]
      constructor
      · intro hk
        exact ⟨[], l, rfl, ⟨rfl, by simp⟩, hk⟩
      · rintro ⟨l1, l2, heq, ⟨hlen, _⟩, hk⟩
        rw [List.length_eq_zero.mp hlen] at heq
        rw [heq, List.nil_append]
        exact hk
  | succ n ih =>
      cases l with
      | nil =>
          simp only [RE.acceptRep, Bool.false_eq_true, false_iff]
          rintro ⟨l1, l2, heq, ⟨hlen, _⟩, _⟩
          have h1 : l1 = [] := (List.append_eq_nil.mp heq.symm).1
          rw [h1] at hlen
          exact Nat.succ_ne_zero n hlen.symm
      | cons c r =>
          simp only [RE.acceptRep, Bool.and_eq_true]
          constructor
          · rintro ⟨hp, hrec⟩
            obtain ⟨l1, l2, heq, ⟨hlen, hall⟩, hk⟩ := ih r |>.mp hrec
            refine ⟨c :: l1, l2, by simp [heq], ⟨by simp [hlen], ?_⟩, hk⟩
            intro x hx
            rcases List.mem_cons.mp hx with h | h
            · simpa [h] using hp
            · exact hall x h
          · rintro ⟨l1, l2, heq, ⟨hlen, hall⟩, hk⟩
            cases l1 with
            | nil => exact absurd hlen (by simp)
            | cons c' l1' =>
                simp only [List.cons_append, List.cons.injEq] at heq
                obtain ⟨hc, hr⟩ := heq
                subst hc
                refine ⟨hall c (List.mem_cons_self c l1'), ?_⟩
                exact ih r |>.mpr ⟨l1', l2, hr, ⟨by simpa using hlen,
                  fun x hx => hall x (List.mem_cons_of_mem c hx)⟩, hk⟩

theorem RE.accept_iff (re : RE) : ∀ (l : List Char) (k : List Char → Bool),
    RE.accept re l k = true ↔
      ∃ l1 l2, l = l1 ++ l2 ∧ RE.Matches re l1 ∧ k l2 = true := by
  induction re with
  | cls p =>
      intro l k
      cases l with
      | nil =>
          simp only [RE.accept, RE.Matches, Bool.false_eq_true, false_iff]
          rintro ⟨l1, l2, heq, ⟨c, hc, _⟩, _⟩
          rw [hc] at heq
          exact List.cons_ne_nil c l2 heq.symm
      | cons c r =>
          simp only [RE.accept, RE.Matches, Bool.and_eq_true]
          constructor
          · rintro ⟨hp, hk⟩
            exact ⟨[c], r, rfl, ⟨c, rfl, hp⟩, hk⟩
          · rintro ⟨l1, l2, heq, ⟨c', hc', hp⟩, hk⟩
            rw [hc'] at heq
            simp only [List.cons_append, List.cons.injEq, List.nil_append] at heq
            obtain ⟨h1, h2⟩ := heq
            subst h1
            rw [← h2] at hk
            exact ⟨hp, hk⟩
  | opt p =>
      intro l k
      cases l with
      | nil =>
          simp only [RE.accept, RE.Matches]
          constructor
          · intro hk
            exact ⟨[], [], rfl, Or.inl rfl, hk⟩
          · rintro ⟨l1, l2, heq, hm, hk⟩
            obtain ⟨h1, h2⟩ := List.append_eq_nil.mp heq.symm
            rw [h2] at hk
            exact hk
      | cons c r =>
          simp only [RE.accept, RE.Matches, Bool.or_eq_true, Bool.and_eq_true]
          constructor
          · rintro (hk | ⟨hp, hk⟩)
            · exact ⟨[], c :: r, rfl, Or.inl rfl, hk⟩
            · exact ⟨[c], r, rfl, Or.inr ⟨c, rfl, hp⟩, hk⟩
          · rintro ⟨l1, l2, heq, hnil | ⟨c', hc', hp⟩, hk⟩
            · rw [hnil, List.nil_append] at heq
              rw [← heq] at hk
              exact Or.inl hk
            · rw [hc'] at heq
              simp only [List.cons_append, List.cons.injEq, List.nil_append] at heq
              obtain ⟨h1, h2⟩ := heq
              subst h1
              rw [← h2] at hk
              exact Or.inr ⟨hp, hk⟩
  | plus p =>
      intro l k
      rw [show RE.accept (.plus p) l k = RE.acceptPlus p l k from rfl]
      rw [RE.acceptPlus_iff]
      constructor
      · rintro ⟨l1, l2, heq, hm, hk⟩
        exact ⟨l1, l2, heq, hm, hk⟩
      · rintro ⟨l1, l2, heq, hm, hk⟩
        exact ⟨l1, l2, heq, hm, hk⟩
  | repN p n =>
      intro l k
      rw [show RE.accept (.repN p n) l k = RE.acceptRep p n l k from rfl]
      rw [RE.acceptRep_iff]
      constructor
      · rintro ⟨l1, l2, heq, hm, hk⟩
        exact ⟨l1, l2, heq, hm, hk⟩
      · rintro ⟨l1, l2, heq, hm, hk⟩
        exact ⟨l1, l2, heq, hm, hk⟩
  | seq a b iha ihb =>
      intro l k
      rw [show RE.accept (.seq a b) l k = RE.accept a l (fun r => RE.accept b r k) from rfl]
      rw [iha]
      constructor
      · rintro ⟨l1, l2, heq, hma, hrec⟩
        obtain ⟨l3, l4, heq2, hmb, hk⟩ := (ihb l2 k).mp hrec
        refine ⟨l1 ++ l3, l4, ?_, ⟨l1, l3, rfl, hma, hmb⟩, hk⟩
        rw [heq, heq2, List.append_assoc]
      · rintro ⟨m1, m2, heq, ⟨s1, s2, hm1, hma, hmb⟩, hk⟩
        refine ⟨s1, s2 ++ m2, ?_, hma, (ihb (s2 ++ m2) k).mpr ⟨s2, m2, rfl, hmb, hk⟩⟩
        rw [heq, hm1, List.append_assoc]

/-- Matching of the full list: `RE.fullAccept re l` is the executable
test that `l`, in its entirety, matches `re` (continuation: remainder
must be empty). -/
def RE.fullAccept (re : RE) (l : List Char) : Bool :=
  RE.accept re l (fun r => r.isEmpty)

theorem RE.fullAccept_iff (re : RE) (l : List Char) :
    RE.fullAccept re l = true ↔ RE.Matches re l := by
  rw [RE.fullAccept, RE.accept_iff]
  constructor
  · rintro ⟨l1, l2, heq, hm, hk⟩
    rw [List.isEmpty_iff.mp hk] at heq
    rw [heq, List.append_nil]
    exact hm
  · intro hm
    exact ⟨l, [], (List.append_nil l).symm, hm, rfl⟩

instance (re : RE) (l : List Char) : Decidable (RE.Matches re l) :=
  decidable_of_iff _ (RE.fullAccept_iff re l)

/-- The separator class of the date patterns in the source: one of
dot, slash, dash. -/
def sepClass (c : Char) : Bool := c = '.' || c = '/' || c = '-'

/-- The sign class `[-+]` (written `[+-]` in the fifth source
pattern — the same set of characters). -/
def signClass (c : Char) : Bool := c = '-' || c = '+'

/-- The literal-dot class `[.]` of the fourth source pattern. -/
def dotClass (c : Char) : Bool := c = '.'

/-- Source pattern 1: `\d` four times, separator, `\d` twice,
separator, `\d` twice (4-digit year first).  Python's `\d` is modelled
as an ASCII decimal digit. -/
def date_pattern_1 : RE :=
  .seq (.repN Char.isDigit 4) (.seq (.cls sepClass)
    (.seq (.repN Char.isDigit 2) (.seq (.cls sepClass) (.repN Char.isDigit 2))))

/-- Source pattern 2: two digits, separator, two digits, separator,
four digits (4-digit year last). -/
def date_pattern_2 : RE :=
  .seq (.repN Char.isDigit 2) (.seq (.cls sepClass)
    (.seq (.repN Char.isDigit 2) (.seq (.cls sepClass) (.repN Char.isDigit 4))))

/-- Source pattern 3: three 2-digit components. -/
def date_pattern_3 : RE :=
  .seq (.repN Char.isDigit 2) (.seq (.cls sepClass)
    (.seq (.repN Char.isDigit 2) (.seq (.cls sepClass) (.repN Char.isDigit 2))))

/-- Source pattern 4: optional sign, digits, literal dot, digits. -/
def float_pattern : RE :=
  .seq (.opt signClass) (.seq (.plus Char.isDigit)
    (.seq (.cls dotClass) (.plus Char.isDigit)))

/-- Source pattern 5: optional sign, digits. -/
def int_pattern : RE :=
  .seq (.opt signClass) (.plus Char.isDigit)

/-- `match_type(pattern, type, field)` from the source.  The Python code
runs `re.findall(pattern, field)` and returns `type` when there is
exactly one match whose length equals `len(field)`.  A single
non-overlapping match is a contiguous substring, so a match of length
`len(field)` is the whole field; conversely, for each of the five
patterns above, when the whole field is in the pattern's language the
leftmost (greedy) match found by `findall` is the whole field (the date
patterns have fixed width, and in the two numeric patterns the greedy
`\d+` runs extend to the dot or to the end).  Hence the source
condition is equivalent to a full match of the entire field, which is
what is embedded here.  (None of the patterns contain groups, so
`findall` returns matched strings, not group tuples.) -/
def match_type (re : RE) (t : SqlType) (field : String) : Option SqlType :=
  if RE.fullAccept re field.toList then some t else none

/-- The ordered `pattern_type_pairs` list from `guess_sql_type`
(src/csv_to_db.py lines 29-35); order is load-bearing. -/
def pattern_type_pairs : List (RE × SqlType) :=
  [(date_pattern_1, .date),
   (date_pattern_2, .date),
   (date_pattern_3, .date),
   (float_pattern, .float15),
   (int_pattern, .float15)]

/-- The `for pattern, type in pattern_type_pairs` loop of
`guess_sql_type`: the first pair whose `match_type` is non-None wins. -/
def first_match : List (RE × SqlType) → String → Option SqlType
  | [], _ => none
  | (re, t) :: rest, field =>
    match match_type re t field with
    | some ty => some ty
    | none => first_match rest field

/-- `guess_sql_type(field)` from the source (lines 24-39).  A `None`
argument cannot arise in the resolver path (csv fields are strings), so
the `field is None` test collapses to the length test.  `None` is
returned for the empty field; otherwise the first fully matching
pattern's type, with `"varchar(50)"` as the fallback. -/
def guess_sql_type (field : String) : Option SqlType :=
  if field.length = 0 then none
  else
    match first_match pattern_type_pairs field with
    | some t => some t
    | none => some .varchar50

example : guess_sql_type "" = none := by decide
example : guess_sql_type "2024-01-05" = some .date := by decide
example : guess_sql_type "31-12-2023" = some .date := by decide
example : guess_sql_type "12.34" = some .float15 := by decide
example : guess_sql_type "-7" = some .float15 := by decide
example : guess_sql_type "hello" = some .varchar50 := by decide

/-- The counting loop of `predict_column_types` (lines 46-49): the
number of entries of `types` that are not `None`. -/
def no_of_typed_columns : List (Option SqlType) → Nat
  | [] => 0
  | some _ :: rest => no_of_typed_columns rest + 1
  | none :: rest => no_of_typed_columns rest

/-- The inner `for i, (field, column_type) in enumerate(zip(row, types))`
loop of `predict_column_types` (lines 54-57): for each position where
the field is non-empty and the slot is still `None`, the slot is set to
`guess_sql_type field` and the counter is incremented.  As in Python's
`zip`, the iteration stops at the shorter of `row` and `types`, and
`types` keeps its length (in-place element assignment). -/
def updateRow : List String → List (Option SqlType) → Nat →
    List (Option SqlType) × Nat
  | f :: fs, t :: ts, c =>
    if f.length ≠ 0 ∧ t = none then
      let r := updateRow fs ts (c + 1)
      (guess_sql_type f :: r.1, r.2)
    else
      let r := updateRow fs ts c
      (t :: r.1, r.2)
  | [], ts, c => (ts, c)
  | _ :: _, [], c => ([], c)

/-- The `for row in rows` loop of `predict_column_types` (lines 51-57),
instrumented with the number of rows pulled from the iterator.  The
break test `no_of_typed_columns == len(row)` is evaluated only after
the `for` statement has already pulled the row, so a row on which the
loop breaks still counts as pulled (and its fields are never
examined). -/
def resolveLoop : List (List String) → List (Option SqlType) → Nat →
    List (Option SqlType) × Nat
  | [], types, _ => (types, 0)
  | row :: rest, types, count =>
    if count = row.length then (types, 1)
    else
      let u := updateRow row types count
      let r := resolveLoop rest u.1 u.2
      (r.1, r.2 + 1)

/-- `predict_column_types(rows)` from the source (lines 42-58),
instrumented with the total number of rows pulled from the iterator.
`next(rows)` on an empty stream raises `StopIteration`, which
propagates to the caller: this is the `none` case.  Otherwise the first
row seeds the vector via `guess_sql_type`, the counter is computed, and
the loop runs on the remaining stream.  Note that the function returns
the vector as is: slots still `None` are not replaced. -/
def predict_column_types_run : List (List String) →
    Option (List (Option SqlType) × Nat)
  | [] => none
  | row :: rest =>
    let types := row.map guess_sql_type
    let r := resolveLoop rest types (no_of_typed_columns types)
    some (r.1, r.2 + 1)

/-- The value returned by `predict_column_types`, or `none` when the
stream is empty (in Python: `StopIteration` escapes to the caller). -/
def predict_column_types (rows : List (List String)) :
    Option (List (Option SqlType)) :=
  (predict_column_types_run rows).map Prod.fst

/-- Number of rows `predict_column_types` pulls from its iterator
(successful `next` calls, i.e. rows consumed from the stream). -/
def predictPulls (rows : List (List String)) : Nat :=
  match predict_column_types_run rows with
  | none => 0
  | some r => r.2

/-- Spec-side helper for claim C7: the first non-empty field value
appearing at column index `i` in the stream, if any. -/
def firstNonEmptyAt : List (List String) → Nat → Option String
  | [], _ => none
  | row :: rest, i =>
    match row.get? i with
    | some f => if f.length ≠ 0 then some f else firstNonEmptyAt rest i
    | none => firstNonEmptyAt rest i

example : predict_column_types [["1", "12.5", "2023-01-02"]] =
    some [some .float15, some .float15, some .date] := by decide
example : predict_column_types [["1", ""], ["2", "hello"]] =
    some [some .float15, some .varchar50] := by decide
example : predict_column_types [[""], [""], [""]] = some [none] := by decide
example : predictPulls [["1"], ["2"], ["3"]] = 2 := by decide

theorem string_length_ne_zero {s : String} (h : s ≠ "") : s.length ≠ 0 :=
  fun h0 => h (String.ext (List.length_eq_zero.mp h0))

theorem guess_sql_type_isSome (f : String) (h : f.length ≠ 0) :
    (guess_sql_type f).isSome = true := by
  rw [guess_sql_type, if_neg h]
  cases first_match pattern_type_pairs f <;> rfl

theorem updateRow_length (row : List String) : ∀ (ts : List (Option SqlType)) (c : Nat),
    ((updateRow row ts c).1).length = ts.length := by
  induction row with
  | nil => intro ts c; rfl
  | cons f fs ih =>
    intro ts c
    cases ts with
    | nil => rfl
    | cons t ts' =>
      simp only [updateRow]
      split
      · simp [ih]
      · simp [ih]

theorem no_of_typed_columns_cons_some (t : SqlType) (l : List (Option SqlType)) :
    no_of_typed_columns (some t :: l) = no_of_typed_columns l + 1 := rfl

theorem no_of_typed_columns_cons_none (l : List (Option SqlType)) :
    no_of_typed_columns (none :: l) = no_of_typed_columns l := rfl

theorem updateRow_count (row : List String) : ∀ (ts : List (Option SqlType)) (c : Nat),
    (updateRow row ts c).2 + no_of_typed_columns ts =
      c + no_of_typed_columns (updateRow row ts c).1 := by
  induction row with
  | nil => intro ts c; rfl
  | cons f fs ih =>
    intro ts c
    cases ts with
    | nil => rfl
    | cons t ts' =>
      simp only [updateRow]
      split
      case isTrue h =>
        obtain ⟨t', ht'⟩ := Option.isSome_iff_exists.mp (guess_sql_type_isSome f h.1)
        have := ih ts' (c + 1)
        rw [h.2, no_of_typed_columns_cons_none, ht', no_of_typed_columns_cons_some]
        omega
      case isFalse h =>
        have := ih ts' c
        cases t with
        | none => simpa [no_of_typed_columns_cons_none] using this
        | some t0 => simp only [no_of_typed_columns_cons_some]; omega

theorem updateRow_get? (row : List String) : ∀ (ts : List (Option SqlType)) (c i : Nat),
    ((updateRow row ts c).1).get? i =
      match row.get? i with
      | some f => (ts.get? i).map
          (fun t => if f.length ≠ 0 ∧ t = none then guess_sql_type f else t)
      | none => ts.get? i := by
  induction row with
  | nil => intro ts c i; rfl
  | cons f fs ih =>
    intro ts c i
    cases ts with
    | nil =>
      cases i with
      | zero => rfl
      | succ n =>
        simp only [updateRow, List.get?]
        split <;> rfl
    | cons t ts' =>
      simp only [updateRow]
      split
      case isTrue h =>
        cases i with
        | zero => simp [h]
        | succ n => simpa using ih ts' (c + 1) n
      case isFalse h =>
        cases i with
        | zero => simp [h]
        | succ n => simpa using ih ts' c n

theorem no_of_typed_columns_le (ts : List (Option SqlType)) :
    no_of_typed_columns ts ≤ ts.length := by
  induction ts with
  | nil => exact Nat.le_refl 0
  | cons t rest ih =>
    cases t with
    | none => rw [no_of_typed_columns_cons_none]; simp; omega
    | some t0 => rw [no_of_typed_columns_cons_some]; simp; omega

theorem isSome_of_no_of_typed_full : ∀ (ts : List (Option SqlType)),
    no_of_typed_columns ts = ts.length →
    ∀ (i : Nat) (o : Option SqlType), ts.get? i = some o → o.isSome = true := by
  intro ts
  induction ts with
  | nil => intro _ i o h; cases i <;> simp_all
  | cons t rest ih =>
    intro hfull i o h
    cases t with
    | none =>
      exfalso
      rw [no_of_typed_columns_cons_none] at hfull
      have := no_of_typed_columns_le rest
      simp at hfull
      omega
    | some t0 =>
      cases i with
      | zero =>
        simp only [List.get?] at h
        obtain rfl := (Option.some.inj h).symm
        rfl
      | succ n =>
        rw [no_of_typed_columns_cons_some] at hfull
        simp only [List.length_cons, Nat.add_right_cancel_iff] at hfull
        exact ih hfull n o h

theorem resolveLoop_length : ∀ (rows : List (List String)) (ts : List (Option SqlType))
    (c : Nat), ((resolveLoop rows ts c).1).length = ts.length := by
  intro rows
  induction rows with
  | nil => intro ts c; rfl
  | cons row rest ih =>
    intro ts c
    simp only [resolveLoop]
    split
    · rfl
    · rw [ih]
      exact updateRow_length row ts c

theorem resolveLoop_preserves_some : ∀ (rows : List (List String))
    (ts : List (Option SqlType)) (c i : Nat) (t : SqlType),
    ts.get? i = some (some t) →
    ((resolveLoop rows ts c).1).get? i = some (some t) := by
  intro rows
  induction rows with
  | nil => intro ts c i t h; exact h
  | cons row rest ih =>
    intro ts c i t h
    simp only [resolveLoop]
    split
    · exact h
    · refine ih _ _ i t ?_
      rw [updateRow_get? row ts c i]
      cases hrow : row.get? i with
      | none => exact h
      | some f =>
        rw [h]
        simp

theorem resolveLoop_unresolved : ∀ (rest : List (List String))
    (ts : List (Option SqlType)) (i : Nat),
    (∀ r ∈ rest, r.length = ts.length) → i < ts.length → ts.get? i = some none →
    ((resolveLoop rest ts (no_of_typed_columns ts)).1).get? i =
      some ((firstNonEmptyAt rest i).bind guess_sql_type) := by
  intro rest
  induction rest with
  | nil =>
    intro ts i _ _ hget
    simpa [resolveLoop, firstNonEmptyAt] using hget
  | cons row rest' ih =>
    intro ts i harity hi hget
    by_cases hbreak : no_of_typed_columns ts = row.length
    · exfalso
      have hfull : no_of_typed_columns ts = ts.length := by
        rw [hbreak, harity row (List.mem_cons_self row rest')]
      have := isSome_of_no_of_typed_full ts hfull i none hget
      simp at this
    · simp only [resolveLoop]
      rw [if_neg hbreak]
      have hrowlen : row.length = ts.length := harity row (List.mem_cons_self row rest')
      have hu2 : (updateRow row ts (no_of_typed_columns ts)).2 =
          no_of_typed_columns (updateRow row ts (no_of_typed_columns ts)).1 := by
        have := updateRow_count row ts (no_of_typed_columns ts)
        omega
      have hulen : ((updateRow row ts (no_of_typed_columns ts)).1).length = ts.length :=
        updateRow_length row ts (no_of_typed_columns ts)
      obtain ⟨f, hf⟩ : ∃ f, row.get? i = some f := by
        have hlt : i < row.length := by omega
        rw [List.get?_eq_get hlt]
        exact ⟨row.get ⟨i, hlt⟩, rfl⟩
      have hug : ((updateRow row ts (no_of_typed_columns ts)).1).get? i =
          some (if f.length ≠ 0 ∧ (none : Option SqlType) = none
                then guess_sql_type f else none) := by
        rw [updateRow_get? row ts (no_of_typed_columns ts) i, hf, hget]
        rfl
      by_cases hflen : f.length ≠ 0
      · have hfone : firstNonEmptyAt (row :: rest') i = some f := by
          simp only [firstNonEmptyAt, hf]
          rw [if_pos hflen]
        rw [hfone]
        obtain ⟨t', ht'⟩ := Option.isSome_iff_exists.mp (guess_sql_type_isSome f hflen)
        rw [hu2]
        have : ((updateRow row ts (no_of_typed_columns ts)).1).get? i = some (some t') := by
          rw [hug, if_pos ⟨hflen, rfl⟩, ht']
        rw [resolveLoop_preserves_some rest' _ _ i t' this]
        rw [Option.some_bind, ht']
      · have hfnone : firstNonEmptyAt (row :: rest') i = firstNonEmptyAt rest' i := by
          simp only [firstNonEmptyAt, hf]
          rw [if_neg hflen]
        rw [hfnone, hu2]
        refine ih _ i ?_ ?_ ?_
        · intro r hr
          rw [hulen]
          exact harity r (List.mem_cons_of_mem row hr)
        · omega
        · rw [hug, if_neg]
          intro hcontra
          exact hflen hcontra.1

theorem resolveLoop_pulls_le : ∀ (rows : List (List String))
    (ts : List (Option SqlType)) (c : Nat),
    (resolveLoop rows ts c).2 ≤ rows.length := by
  intro rows
  induction rows with
  | nil => intro ts c; exact Nat.le_refl 0
  | cons row rest ih =>
    intro ts c
    simp only [resolveLoop, List.length_cons]
    split
    · omega
    · have := ih (updateRow row ts c).1 (updateRow row ts c).2
      omega

theorem resolveLoop_take : ∀ (rows : List (List String))
    (ts : List (Option SqlType)) (c : Nat),
    resolveLoop (rows.take ((resolveLoop rows ts c).2)) ts c =
      resolveLoop rows ts c := by
  intro rows
  induction rows with
  | nil => intro ts c; rfl
  | cons row rest ih =>
    intro ts c
    by_cases hbreak : c = row.length
    · simp [resolveLoop, hbreak]
    · conv_lhs => rw [show (resolveLoop (row :: rest) ts c).2 =
        (resolveLoop rest (updateRow row ts c).1 (updateRow row ts c).2).2 + 1 from by
          simp [resolveLoop, hbreak]]
      rw [List.take_succ_cons]
      simp only [resolveLoop]
      rw [if_neg hbreak, if_neg hbreak]
      rw [ih]

theorem updateRow_allEmpty : ∀ (row : List String) (ts : List (Option SqlType)) (c : Nat),
    (∀ f ∈ row, f = "") → updateRow row ts c = (ts, c) := by
  intro row
  induction row with
  | nil => intro ts c _; rfl
  | cons f fs ih =>
    intro ts c hall
    cases ts with
    | nil => rfl
    | cons t ts' =>
      have hf : f = "" := hall f (List.mem_cons_self f fs)
      have hfs : ∀ g ∈ fs, g = "" := fun g hg => hall g (List.mem_cons_of_mem f hg)
      simp only [updateRow]
      rw [if_neg (by rw [hf]; simp)]
      rw [ih ts' c hfs]

theorem resolveLoop_allEmpty : ∀ (rows : List (List String))
    (ts : List (Option SqlType)) (c : Nat),
    (∀ r ∈ rows, ∀ f ∈ r, f = "") → (resolveLoop rows ts c).1 = ts := by
  intro rows
  induction rows with
  | nil => intro ts c _; rfl
  | cons row rest ih =>
    intro ts c hall
    simp only [resolveLoop]
    split
    · rfl
    · rw [updateRow_allEmpty row ts c (hall row (List.mem_cons_self row rest))]
      exact ih ts c (fun r hr => hall r (List.mem_cons_of_mem row hr))

theorem map_guess_allEmpty : ∀ (r1 : List String), (∀ f ∈ r1, f = "") →
    r1.map guess_sql_type = List.replicate r1.length none := by
  intro r1
  induction r1 with
  | nil => intro _; rfl
  | cons f fs ih =>
    intro hall
    have hf : f = "" := hall f (List.mem_cons_self f fs)
    simp only [List.map_cons, List.length_cons, List.replicate_succ]
    rw [hf]
    rw [ih (fun g hg => hall g (List.mem_cons_of_mem f hg))]
    rfl

theorem count_full_of_nonempty : ∀ (r1 : List String), (∀ f ∈ r1, f ≠ "") →
    no_of_typed_columns (r1.map guess_sql_type) = r1.length := by
  intro r1
  induction r1 with
  | nil => intro _; rfl
  | cons f fs ih =>
    intro hall
    obtain ⟨t', ht'⟩ := Option.isSome_iff_exists.mp (guess_sql_type_isSome f
      (string_length_ne_zero (hall f (List.mem_cons_self f fs))))
    simp only [List.map_cons, List.length_cons, ht', no_of_typed_columns_cons_some]
    rw [ih (fun g hg => hall g (List.mem_cons_of_mem f hg))]

/-- Unfolding of `guess_sql_type` on a non-empty field into the
five-way cascade over the executable full matchers, in source order. -/
theorem guess_sql_type_cascade (s : String) (hs : s.length ≠ 0) :
    guess_sql_type s =
      if RE.fullAccept date_pattern_1 s.toList then some .date
      else if RE.fullAccept date_pattern_2 s.toList then some .date
      else if RE.fullAccept date_pattern_3 s.toList then some .date
      else if RE.fullAccept float_pattern s.toList then some .float15
      else if RE.fullAccept int_pattern s.toList then some .float15
      else some .varchar50 := by
  rw [guess_sql_type, if_neg hs]
  simp only [first_match, pattern_type_pairs, match_type]
  by_cases h1 : RE.fullAccept date_pattern_1 s.data <;>
    by_cases h2 : RE.fullAccept date_pattern_2 s.data <;>
    by_cases h3 : RE.fullAccept date_pattern_3 s.data <;>
    by_cases h4 : RE.fullAccept float_pattern s.data <;>
    by_cases h5 : RE.fullAccept int_pattern s.data <;>
    simp [h1, h2, h3, h4, h5]

/-- Claim C1, counterexample: on the all-empty single-column stream of
three rows the code returns `[None]` (the unresolved sentinel), not the
text fallback `[varchar(50)]` the claim demands. -/
theorem C1_counterexample :
    predict_column_types [[""], [""], [""]] = some [none] ∧
    predict_column_types [[""], [""], [""]] ≠ some [some SqlType.varchar50] := by
  decide

/-- Claim C1 (amended): when the stream is exhausted, slots still
unresolved are NOT set to text: `predict_column_types` returns the
vector as is, so for a stream whose fields are all empty every slot of
the output is still `none`; in particular, for a single all-empty
column over three rows the result is `[none]`, not `[text]`. -/
theorem C1_unresolved_slots_stay_none (r1 : List String) (rest : List (List String))
    (h1 : ∀ f ∈ r1, f = "") (hrest : ∀ r ∈ rest, ∀ f ∈ r, f = "") :
    predict_column_types (r1 :: rest) = some (List.replicate r1.length none) := by
  simp only [predict_column_types, predict_column_types_run]
  rw [resolveLoop_allEmpty rest _ _ hrest, map_guess_allEmpty r1 h1]
  rfl

/-- Witness for the amended claim C1, at the claim's own input. -/
theorem C1_unresolved_slots_stay_none_witness :
    predict_column_types [[""], [""], [""]] =
      some (List.replicate ([""] : List String).length none) :=
  C1_unresolved_slots_stay_none [""] [[""], [""]] (by decide) (by decide)

/-- Claim C2, counterexample: with stream `[["1"], ["2"], ["3"]]` the
first row already resolves the only column, yet the code pulls a second
row before testing the stop condition, so two rows are consumed, not
one as the claim states. -/
theorem C2_counterexample :
    predictPulls [["1"], ["2"], ["3"]] ≠ 1 ∧
    predictPulls [["1"], ["2"], ["3"]] = 2 := by
  decide

/-- Claim C2 (amended): once the resolved count equals the column
count, the loop stops — but only after pulling one more row from the
stream, because the stop test runs after the `for` statement has
already pulled the row (whose fields are then never examined).  In
particular, when the first row resolves every column and at least one
more row exists, exactly two rows are pulled in total, and the output
is exactly the classification of the first row. -/
theorem C2_stop_after_one_extra_pull (r1 r2 : List String) (rest : List (List String))
    (hfull : ∀ f ∈ r1, f ≠ "") (hlen : r2.length = r1.length) :
    predictPulls (r1 :: r2 :: rest) = 2 ∧
    predict_column_types (r1 :: r2 :: rest) = some (r1.map guess_sql_type) := by
  have hbreak : no_of_typed_columns (r1.map guess_sql_type) = r2.length := by
    rw [count_full_of_nonempty r1 hfull, hlen]
  have hloop : resolveLoop (r2 :: rest) (r1.map guess_sql_type)
      (no_of_typed_columns (r1.map guess_sql_type)) = (r1.map guess_sql_type, 1) := by
    simp only [resolveLoop]
    rw [if_pos hbreak]
  constructor
  · simp only [predictPulls, predict_column_types_run, hloop]
  · simp only [predict_column_types, predict_column_types_run, hloop]
    rfl

/-- Witness for the amended claim C2. -/
theorem C2_stop_after_one_extra_pull_witness :
    predictPulls [["1"], ["2"], ["3"]] = 2 ∧
    predict_column_types [["1"], ["2"], ["3"]] = some (["1"].map guess_sql_type) :=
  C2_stop_after_one_extra_pull ["1"] ["2"] [["3"]] (by decide) (by decide)

/-- Claim C3: on an empty row stream `next(rows)` raises
`StopIteration`, which escapes `predict_column_types` to the caller
(the `none` case of the embedding): the function fails fast rather than
returning an empty type vector. -/
theorem C3_empty_stream_error :
    predict_column_types_run [] = none ∧ predict_column_types [] = none :=
  ⟨rfl, rfl⟩

/-- Claim C6: a fractional string and signed integer strings (both
signs) all classify to the single numeric tag, `float(15)` in the
source, called `decimal` by the spec. -/
theorem C6_signed_numeric_examples :
    guess_sql_type "12.34" = some SqlType.float15 ∧
    guess_sql_type "-7" = some SqlType.float15 ∧
    guess_sql_type "+7" = some SqlType.float15 := by
  decide

/-- Claim C8: for a non-empty stream of uniform arity `columnCount`,
the returned type vector has length `columnCount` (the vector is seeded
from the first row and the loop preserves its length). -/
theorem C8_output_length (columnCount : Nat) (r1 : List String)
    (rest : List (List String)) (h1 : r1.length = columnCount)
    (harity : ∀ r ∈ rest, r.length = columnCount) (ts : List (Option SqlType))
    (hts : predict_column_types (r1 :: rest) = some ts) : ts.length = columnCount := by
  have hts' : (resolveLoop rest (r1.map guess_sql_type)
      (no_of_typed_columns (r1.map guess_sql_type))).1 = ts := by
    simpa [predict_column_types, predict_column_types_run] using hts
  rw [← hts', resolveLoop_length, List.length_map, h1]

/-- Witness for claim C8 at a concrete two-column stream. -/
theorem C8_output_length_witness :
    ([some SqlType.float15, some SqlType.float15] : List (Option SqlType)).length = 2 :=
  C8_output_length 2 ["1", "2.5"] [] (by decide) (by decide)
    [some SqlType.float15, some SqlType.float15] (by decide)

/-- Claim C10: the running counter stays equal to the number of
non-`None` slots: `guess_sql_type` never returns `None` on a non-empty
field, so every write the row loop performs (non-empty field into a
still-`None` slot) makes the slot non-`None`, and one full row update
started with a consistent counter ends with a consistent counter. -/
theorem C10_counter_matches_slots :
    (∀ f : String, f ≠ "" → (guess_sql_type f).isSome = true) ∧
    (∀ (row : List String) (ts : List (Option SqlType)),
      (updateRow row ts (no_of_typed_columns ts)).2 =
        no_of_typed_columns (updateRow row ts (no_of_typed_columns ts)).1) := by
  constructor
  · intro f hf
    exact guess_sql_type_isSome f (string_length_ne_zero hf)
  · intro row ts
    have := updateRow_count row ts (no_of_typed_columns ts)
    omega

/-- Witness for claim C10 at concrete values. -/
theorem C10_counter_matches_slots_witness :
    (guess_sql_type "7").isSome = true ∧
    (updateRow ["7"] [none] (no_of_typed_columns [none])).2 =
      no_of_typed_columns (updateRow ["7"] [none] (no_of_typed_columns [none])).1 :=
  ⟨C10_counter_matches_slots.1 "7" (by decide),
   C10_counter_matches_slots.2 ["7"] [none]⟩

/-- Claim C9: resolution pulls at most `number_of_rows` rows from the
stream and is forward-only: the result (type vector and pull count) is
already determined by the consumed prefix of the stream, so no row
outside that prefix — in particular no already-consumed row — is ever
read.  Termination is structural in the embedding (the Python loop
advances the iterator on every iteration). -/
theorem C9_forward_only (rows : List (List String)) :
    predictPulls rows ≤ rows.length ∧
    predict_column_types_run (rows.take (predictPulls rows)) =
      predict_column_types_run rows := by
  cases rows with
  | nil => exact ⟨Nat.le_refl 0, rfl⟩
  | cons row rest =>
    constructor
    · simp only [predictPulls, predict_column_types_run, List.length_cons]
      have := resolveLoop_pulls_le rest (row.map guess_sql_type)
        (no_of_typed_columns (row.map guess_sql_type))
      omega
    · simp only [predictPulls, predict_column_types_run]
      rw [List.take_succ_cons]
      simp only [predict_column_types_run]
      rw [resolveLoop_take]

/-- Claim C5: the empty field classifies to `None` (unresolved), and a
non-empty field fully matching none of the five patterns classifies to
`varchar(50)` (the text fallback). -/
theorem C5_empty_unresolved_nomatch_text (s : String) (hs : s ≠ "")
    (hnone : ∀ p ∈ pattern_type_pairs, ¬ RE.Matches p.1 s.toList) :
    guess_sql_type "" = none ∧ guess_sql_type s = some SqlType.varchar50 := by
  refine ⟨rfl, ?_⟩
  rw [guess_sql_type_cascade s (string_length_ne_zero hs)]
  have h1 := hnone (date_pattern_1, SqlType.date) (by simp [pattern_type_pairs])
  have h2 := hnone (date_pattern_2, SqlType.date) (by simp [pattern_type_pairs])
  have h3 := hnone (date_pattern_3, SqlType.date) (by simp [pattern_type_pairs])
  have h4 := hnone (float_pattern, SqlType.float15) (by simp [pattern_type_pairs])
  have h5 := hnone (int_pattern, SqlType.float15) (by simp [pattern_type_pairs])
  rw [← RE.fullAccept_iff] at h1 h2 h3 h4 h5
  rw [if_neg h1, if_neg h2, if_neg h3, if_neg h4, if_neg h5]

/-- Witness for claim C5 at the field value "hello". -/
theorem C5_empty_unresolved_nomatch_text_witness :
    guess_sql_type "" = none ∧ guess_sql_type "hello" = some SqlType.varchar50 :=
  C5_empty_unresolved_nomatch_text "hello" (by decide) (by decide)

/-- Claim C4: for a non-empty field, `guess_sql_type` returns the type
tag of the first pattern in the ordered `pattern_type_pairs` list whose
language contains the entire field string — full matches only, in list
order. -/
theorem C4_first_full_match_wins (s : String) (hs : s ≠ "") (i : Nat)
    (hi : i < pattern_type_pairs.length)
    (hm : RE.Matches (pattern_type_pairs.get ⟨i, hi⟩).1 s.toList)
    (hfirst : ∀ j (hj : j < i),
      ¬ RE.Matches (pattern_type_pairs.get ⟨j, Nat.lt_trans hj hi⟩).1 s.toList) :
    guess_sql_type s = some (pattern_type_pairs.get ⟨i, hi⟩).2 := by
  rw [guess_sql_type_cascade s (string_length_ne_zero hs)]
  have hi5 : i < 5 := hi
  interval_cases i
  · have e0 : pattern_type_pairs.get ⟨0, hi⟩ = (date_pattern_1, SqlType.date) := rfl
    rw [e0] at hm ⊢
    rw [← RE.fullAccept_iff] at hm
    rw [if_pos hm]
  · have e0 : pattern_type_pairs.get ⟨0, by omega⟩ =
        (date_pattern_1, SqlType.date) := rfl
    have e1 : pattern_type_pairs.get ⟨1, hi⟩ = (date_pattern_2, SqlType.date) := rfl
    have h0 := hfirst 0 (by omega)
    rw [e0] at h0
    rw [e1] at hm ⊢
    rw [← RE.fullAccept_iff] at hm h0
    rw [if_neg h0, if_pos hm]
  · have e0 : pattern_type_pairs.get ⟨0, by omega⟩ =
        (date_pattern_1, SqlType.date) := rfl
    have e1 : pattern_type_pairs.get ⟨1, by omega⟩ =
        (date_pattern_2, SqlType.date) := rfl
    have e2 : pattern_type_pairs.get ⟨2, hi⟩ = (date_pattern_3, SqlType.date) := rfl
    have h0 := hfirst 0 (by omega)
    have h1 := hfirst 1 (by omega)
    rw [e0] at h0
    rw [e1] at h1
    rw [e2] at hm ⊢
    rw [← RE.fullAccept_iff] at hm h0 h1
    rw [if_neg h0, if_neg h1, if_pos hm]
  · have e0 : pattern_type_pairs.get ⟨0, by omega⟩ =
        (date_pattern_1, SqlType.date) := rfl
    have e1 : pattern_type_pairs.get ⟨1, by omega⟩ =
        (date_pattern_2, SqlType.date) := rfl
    have e2 : pattern_type_pairs.get ⟨2, by omega⟩ =
        (date_pattern_3, SqlType.date) := rfl
    have e3 : pattern_type_pairs.get ⟨3, hi⟩ = (float_pattern, SqlType.float15) := rfl
    have h0 := hfirst 0 (by omega)
    have h1 := hfirst 1 (by omega)
    have h2 := hfirst 2 (by omega)
    rw [e0] at h0
    rw [e1] at h1
    rw [e2] at h2
    rw [e3] at hm ⊢
    rw [← RE.fullAccept_iff] at hm h0 h1 h2
    rw [if_neg h0, if_neg h1, if_neg h2, if_pos hm]
  · have e0 : pattern_type_pairs.get ⟨0, by omega⟩ =
        (date_pattern_1, SqlType.date) := rfl
    have e1 : pattern_type_pairs.get ⟨1, by omega⟩ =
        (date_pattern_2, SqlType.date) := rfl
    have e2 : pattern_type_pairs.get ⟨2, by omega⟩ =
        (date_pattern_3, SqlType.date) := rfl
    have e3 : pattern_type_pairs.get ⟨3, by omega⟩ =
        (float_pattern, SqlType.float15) := rfl
    have e4 : pattern_type_pairs.get ⟨4, hi⟩ = (int_pattern, SqlType.float15) := rfl
    have h0 := hfirst 0 (by omega)
    have h1 := hfirst 1 (by omega)
    have h2 := hfirst 2 (by omega)
    have h3 := hfirst 3 (by omega)
    rw [e0] at h0
    rw [e1] at h1
    rw [e2] at h2
    rw [e3] at h3
    rw [e4] at hm ⊢
    rw [← RE.fullAccept_iff] at hm h0 h1 h2 h3
    rw [if_neg h0, if_neg h1, if_neg h2, if_neg h3, if_pos hm]

/-- Witness for claim C4: "2024-01-05" fully matches the first pattern
(4-digit year date), so it classifies to `date` — in particular not to
the numeric `float(15)` tag ("decimal" in the spec). -/
theorem C4_first_full_match_wins_witness :
    guess_sql_type "2024-01-05" = some (pattern_type_pairs.get ⟨0, by decide⟩).2 :=
  C4_first_full_match_wins "2024-01-05" (by decide) 0 (by decide) (by decide)
    (fun j hj => absurd hj (by omega))

/-- Claim C7: under uniform arity, a resolved slot equals the
classification of the first non-empty field value appearing for that
column in the stream, and an unresolved slot means no non-empty value
ever appeared: later rows never override a slot once it is set to a
non-`None` tag. -/
theorem C7_first_nonempty_value_decides (r1 : List String) (rest : List (List String))
    (harity : ∀ r ∈ rest, r.length = r1.length) (i : Nat) (hi : i < r1.length)
    (ts : List (Option SqlType))
    (hts : predict_column_types (r1 :: rest) = some ts) :
    ts.get? i = some ((firstNonEmptyAt (r1 :: rest) i).bind guess_sql_type) := by
  have hts' : (resolveLoop rest (r1.map guess_sql_type)
      (no_of_typed_columns (r1.map guess_sql_type))).1 = ts := by
    simpa [predict_column_types, predict_column_types_run] using hts
  have hf : r1.get? i = some (r1.get ⟨i, hi⟩) := List.get?_eq_get hi
  set f := r1.get ⟨i, hi⟩ with hfdef
  have hmap : (r1.map guess_sql_type).get? i = some (guess_sql_type f) := by
    rw [List.get?_map, hf]
    rfl
  by_cases hfe : f.length ≠ 0
  · obtain ⟨t', ht'⟩ := Option.isSome_iff_exists.mp (guess_sql_type_isSome f hfe)
    have hslot : (r1.map guess_sql_type).get? i = some (some t') := by
      rw [hmap, ht']
    rw [← hts', resolveLoop_preserves_some rest _ _ i t' hslot]
    have hfirst : firstNonEmptyAt (r1 :: rest) i = some f := by
      simp only [firstNonEmptyAt, hf]
      rw [if_pos hfe]
    rw [hfirst, Option.some_bind, ht']
  · have hguessnone : guess_sql_type f = none := by
      rw [guess_sql_type, if_pos (by omega)]
    have hslot : (r1.map guess_sql_type).get? i = some none := by
      rw [hmap, hguessnone]
    have harity' : ∀ r ∈ rest, r.length = (r1.map guess_sql_type).length := by
      intro r hr
      rw [List.length_map]
      exact harity r hr
    have hi' : i < (r1.map guess_sql_type).length := by
      rw [List.length_map]
      exact hi
    rw [← hts', resolveLoop_unresolved rest _ i harity' hi' hslot]
    have hfirst : firstNonEmptyAt (r1 :: rest) i = firstNonEmptyAt rest i := by
      simp only [firstNonEmptyAt, hf]
      rw [if_neg hfe]
    rw [hfirst]

/-- Witness for claim C7: with first row `[""]` and second row
`["x"]`, the column's first non-empty value is "x", and the resolved
slot equals its classification. -/
theorem C7_first_nonempty_value_decides_witness :
    ([some SqlType.varchar50] : List (Option SqlType)).get? 0 =
      some ((firstNonEmptyAt [[""], ["x"]] 0).bind guess_sql_type) :=
  C7_first_nonempty_value_decides [""] [["x"]] (by decide) 0 (by decide)
    [some SqlType.varchar50] (by decide)
